import Mathlib

/-!
Verification of the react-parallax-canvas engine.

Shallow embedding of the proximity-reactive animation engine: the falloff
math of src/util/util.js, the guarded ease-out of the unnamed util variant,
and the entity model, pointer tracker, paint orderer, hit tester and frame
driver of src/Canvas.js (two component variants).  JavaScript numbers are
modelled as rationals; Math.floor is Int.floor; the sqrt in
euclideanDistance only ever matters through the ordering it induces, which
coincides with the ordering of the (rational) squared distance.
-/

namespace ParallaxCanvas

/-- Squared Euclidean distance between two points, the radicand of
euclideanDistance in util.js: (p1.x-p2.x)^2 + (p1.y-p2.y)^2.  The source
takes the square root of this; since Real.sqrt is monotone, every
comparison of distances in the source is equivalent to the same comparison
of these squares. -/
def euclideanDistanceSq (p1 p2 : ℚ × ℚ) : ℚ :=
  (p1.1 - p2.1) ^ 2 + (p1.2 - p2.2) ^ 2

/-- Body of getMultiplicationFactor in util.js after the distance has been
computed: if (distance < cutOffDistance) return (-1/cutOffDistance)*distance + 1
else return 0. -/
def getMultiplicationFactor (cutOffDistance distance : ℚ) : ℚ :=
  if distance < cutOffDistance then (-1 / cutOffDistance) * distance + 1 else 0

/-- mFactor as computed inline in CanvasImage.draw of the first Canvas.js
variant (lines 103-110): initialised to 0, set to the linear expression when
currentValue < 600. -/
def mFactorDrawV1 (currentValue : ℚ) : ℚ :=
  if currentValue < 600 then (-1 / 600) * currentValue + 1 else 0

/-- mFactor as computed inline in handleCanvasClick of the first Canvas.js
variant (lines 340-344): same shape as mFactorDrawV1. -/
def mFactorClickV1 (currentValue : ℚ) : ℚ :=
  if currentValue < 600 then (-1 / 600) * currentValue + 1 else 0

/-- mFactor as computed inline in CanvasImage.draw of the second Canvas.js
variant (lines 523-525): the linear expression, overridden to 0 when
currentValue > 600. -/
def mFactorDrawV2 (currentValue : ℚ) : ℚ :=
  if currentValue > 600 then 0 else (-1 / 600) * currentValue + 1

/-- mFactor as computed inline in handleCanvasClick of the second Canvas.js
variant (lines 810-812): same shape as mFactorDrawV2. -/
def mFactorClickV2 (currentValue : ℚ) : ℚ :=
  if currentValue > 600 then 0 else (-1 / 600) * currentValue + 1

/-- dynamicWidth and dynamicHeight of CanvasImage.draw, first variant
(lines 113-114): Math.floor(base + base * mFactor), applied to this.width
and this.height respectively. -/
def dynamicDimDrawV1 (base currentValue : ℚ) : ℤ :=
  ⌊base + base * mFactorDrawV1 currentValue⌋

/-- dynamicWidth and dynamicHeight of the hit-test filter in
handleCanvasClick, first variant (lines 345-346). -/
def dynamicDimClickV1 (base currentValue : ℚ) : ℤ :=
  ⌊base + base * mFactorClickV1 currentValue⌋

/-- width and height of CanvasImage.draw, second variant (lines 528-529). -/
def dynamicDimDrawV2 (base currentValue : ℚ) : ℤ :=
  ⌊base + base * mFactorDrawV2 currentValue⌋

/-- width and height of the hit-test filter in handleCanvasClick, second
variant (lines 813-814). -/
def dynamicDimClickV2 (base currentValue : ℚ) : ℤ :=
  ⌊base + base * mFactorClickV2 currentValue⌋

/-- The compareFunction every call site passes to the easing step:
(a, b) => Math.abs(a - b). -/
def compareAbs (a b : ℚ) : ℚ := |a - b|

/-- applyNonDeterministicEaseOut from the unnamed util file (lines 49-63):
when compareFunction(currentValue, destinationValue) - speed exceeds the
acceleration coefficient, recompute speed proportionally to the gap and move
currentValue one step of that size toward destinationValue; otherwise leave
both unchanged. -/
def applyNonDeterministicEaseOut (destinationValue currentValue speed accelaration_coefficient : ℚ)
    (compareFunction : ℚ → ℚ → ℚ) : ℚ × ℚ :=
  if compareFunction currentValue destinationValue - speed > accelaration_coefficient then
    let speed2 := compareFunction currentValue destinationValue * accelaration_coefficient
    let sign : ℚ := if currentValue < destinationValue then 1 else -1
    (currentValue + sign * speed2, speed2)
  else
    (currentValue, speed)

/-- Iterating the easing step n times against a fixed destination, with the
absolute-difference compare used at every call site. -/
def easeIter (destinationValue accelaration_coefficient : ℚ) :
    ℕ → ℚ × ℚ → ℚ × ℚ
  | 0, s => s
  | n + 1, s =>
      let s2 := easeIter destinationValue accelaration_coefficient n s
      applyNonDeterministicEaseOut destinationValue s2.1 s2.2 accelaration_coefficient compareAbs

/-- Entity model of the first Canvas.js variant: the fields CanvasImage's
constructor assigns (width, height, url, center, currentValue, speed).  The
img element and DOM drawing are outside the engine boundary. -/
structure CanvasImage where
  width : ℚ
  height : ℚ
  url : String
  center : ℚ × ℚ
  currentValue : ℚ
  speed : ℚ
deriving Repr, DecidableEq

/-- CanvasImage's constructor, first variant (Canvas.js lines 41-52).  The
source body performs no validation and has no throw path, so the embedding
in Except (chosen to make the error-handling behaviour expressible) is
always Except.ok: this.width = width; this.height = height; this.url = url;
this.center = (left + width/2, top + height/2); this.currentValue = 2000;
this.speed = 0. -/
def CanvasImage.construct (left top width height : ℚ) (url : String) :
    Except String CanvasImage :=
  Except.ok
    { width := width, height := height, url := url,
      center := (left + width / 2, top + height / 2),
      currentValue := 2000, speed := 0 }

/-- Entity model of the second Canvas.js variant, which adds the loading
fields hasLoaded, opacity and loadingAnimationStartTime. -/
structure CanvasImageV2 where
  width : ℚ
  height : ℚ
  url : String
  center : ℚ × ℚ
  hasLoaded : Bool
  opacity : ℚ
  loadingAnimationStartTime : Option ℚ
  currentValue : ℚ
  speed : ℚ
deriving Repr, DecidableEq

/-- CanvasImage's constructor, second variant (Canvas.js lines 418-436).
Again no validation and no throw path, so always Except.ok. -/
def CanvasImageV2.construct (left top width height : ℚ) (url : String) :
    Except String CanvasImageV2 :=
  Except.ok
    { width := width, height := height, url := url,
      center := (left + width / 2, top + height / 2),
      hasLoaded := false, opacity := 0, loadingAnimationStartTime := none,
      currentValue := 2000, speed := 0 }

/-- translatedMouseCoords as computed in animate and handleCanvasClick:
mouse position plus Math.floor(currentOffset * coefficient) per axis. -/
def translatedMouseCoords (mouseCoords : ℚ × ℚ)
    (currentOffsetX currentOffsetY coefficient : ℚ) : ℚ × ℚ :=
  (mouseCoords.1 + ((⌊currentOffsetX * coefficient⌋ : ℤ) : ℚ),
   mouseCoords.2 + ((⌊currentOffsetY * coefficient⌋ : ℤ) : ℚ))

/-- The hit-test filter predicate of handleCanvasClick, first variant
(lines 337-353): dynamic bounds from the element's currentValue, then the
four strict comparisons against the translated mouse position. -/
def inRegion (tm : ℚ × ℚ) (elem : CanvasImage) : Bool :=
  let dynamicWidth : ℚ := ((dynamicDimClickV1 elem.width elem.currentValue : ℤ) : ℚ)
  let dynamicHeight : ℚ := ((dynamicDimClickV1 elem.height elem.currentValue : ℤ) : ℚ)
  decide (tm.1 > elem.center.1 - dynamicWidth / 2) &&
  decide (tm.1 < elem.center.1 + dynamicWidth / 2) &&
  decide (tm.2 > elem.center.2 - dynamicHeight / 2) &&
  decide (tm.2 < elem.center.2 + dynamicHeight / 2)

/-- The hit-test filter predicate of handleCanvasClick, second variant
(lines 807-821), using that variant's mFactor shape. -/
def inRegionV2 (tm : ℚ × ℚ) (elem : CanvasImage) : Bool :=
  let width : ℚ := ((dynamicDimClickV2 elem.width elem.currentValue : ℤ) : ℚ)
  let height : ℚ := ((dynamicDimClickV2 elem.height elem.currentValue : ℤ) : ℚ)
  decide (tm.1 > elem.center.1 - width / 2) &&
  decide (tm.1 < elem.center.1 + width / 2) &&
  decide (tm.2 > elem.center.2 - height / 2) &&
  decide (tm.2 < elem.center.2 + height / 2)

/-- handleCanvasClick, first variant (lines 328-360): filter the elements by
the region test, then fire onClick on clickedElements[length - 1] only when
the filtered list is non-empty.  The element whose onClick fires is returned
as an Option (none = no click fires). -/
def handleCanvasClick (canvasElements : List CanvasImage) (tm : ℚ × ℚ) :
    Option CanvasImage :=
  let clickedElements := canvasElements.filter (inRegion tm)
  if 0 < clickedElements.length then
    clickedElements.get? (clickedElements.length - 1)
  else none

/-- handleCanvasClick, second variant (lines 798-827): identical selection
logic over the second variant's region test. -/
def handleCanvasClickV2 (canvasElements : List CanvasImage) (tm : ℚ × ℚ) :
    Option CanvasImage :=
  let clickedElements := canvasElements.filter (inRegionV2 tm)
  if 0 < clickedElements.length then
    clickedElements.get? (clickedElements.length - 1)
  else none

/-- Sample entity used to witness the hit-test theorem on concrete input:
a 200 x 250 image centred at (100, 100) in its rest state. -/
def sampleImage : CanvasImage :=
  { width := 200, height := 250, url := "boat", center := (100, 100),
    currentValue := 2000, speed := 0 }

/-- The order produced by the sort comparator of Canvas.animate (line 265)
and Canvas.drawingAnimation (line 740): the comparator
d(elem2, mouse) - d(elem1, mouse) places elements of larger distance first.
Comparing Euclidean distances is equivalent to comparing their squares. -/
def distanceGE (tm : ℚ × ℚ) (elem1 elem2 : CanvasImage) : Prop :=
  euclideanDistanceSq elem2.center tm ≤ euclideanDistanceSq elem1.center tm

instance (tm : ℚ × ℚ) : DecidableRel (distanceGE tm) := fun a b => by
  unfold distanceGE; infer_instance

/-- The canvasElements.sort of animate and drawingAnimation: a sorted
permutation under the descending-distance comparator (JavaScript
Array.prototype.sort guarantees exactly a sorted permutation for a
consistent comparator). -/
def sortCanvasElements (tm : ℚ × ℚ) (canvasElements : List CanvasImage) :
    List CanvasImage :=
  canvasElements.insertionSort (distanceGE tm)

/-- The pointer-tracking state of the Canvas component: mouseCoords with its
running totals, and prevMouseCoords (none models the initial undefined). -/
structure MouseState where
  x : ℚ
  y : ℚ
  totalMovementX : ℚ
  totalMovementY : ℚ
  prevMouseCoords : Option (ℚ × ℚ)
deriving Repr, DecidableEq

/-- Initial pointer state of the first variant: mouseCoords = (2000, 2000),
totals 0, prevMouseCoords undefined. -/
def initMouseState : MouseState :=
  { x := 2000, y := 2000, totalMovementX := 0, totalMovementY := 0,
    prevMouseCoords := none }

/-- handleMouseMove (lines 288-316 and 760-786, identical): on the first
event prevMouseCoords is set to the current position before the delta is
taken; totals accumulate current - previous; previous becomes current. -/
def handleMouseMove (s : MouseState) (mx my : ℚ) : MouseState :=
  let prev :=
    match s.prevMouseCoords with
    | none => (mx, my)
    | some p => p
  { x := mx, y := my,
    totalMovementX := s.totalMovementX + (mx - prev.1),
    totalMovementY := s.totalMovementY + (my - prev.2),
    prevMouseCoords := some (mx, my) }

/-- A sequence of pointer-move events processed from the initial state. -/
def processMouseMoves (events : List (ℚ × ℚ)) : MouseState :=
  events.foldl (fun s e => handleMouseMove s e.1 e.2) initMouseState

/-- Frame-driver scheduling state: the id of the pending scheduled
animation-frame callback (none = idle), the id the component saved in
this.animationID, and a fresh-id counter. -/
structure FrameDriver where
  pending : Option ℕ
  animationID : Option ℕ
  nextId : ℕ
deriving Repr, DecidableEq

/-- The host's requestAnimationFrame: schedules a fresh callback and
returns its id. -/
def requestAnimationFrame (d : FrameDriver) : FrameDriver × ℕ :=
  ({ d with pending := some d.nextId, nextId := d.nextId + 1 }, d.nextId)

/-- The host's cancelAnimationFrame: cancels the pending callback when the
given id matches it; with an undefined or stale id it does nothing. -/
def cancelAnimationFrame (d : FrameDriver) (id : Option ℕ) : FrameDriver :=
  match id with
  | some i => if d.pending = some i then { d with pending := none } else d
  | none => d

/-- The scheduling effect of one animate tick in the first variant
(line 277): requestAnimationFrame(() => this.animate()) with the returned
id discarded (never stored). -/
def animateTickV1 (d : FrameDriver) : FrameDriver :=
  (requestAnimationFrame { d with pending := none }).1

/-- The scheduling effect of one animate tick in the second variant
(line 652): this.animationID = requestAnimationFrame(...). -/
def animateTickV2 (d : FrameDriver) : FrameDriver :=
  let r := requestAnimationFrame { d with pending := none }
  { r.1 with animationID := some r.2 }

/-- componentWillUnmount of the first variant (lines 200-202): the body is
only alert('You forgot to kill the animation') - no cancellation, so the
scheduling state is left untouched. -/
def componentWillUnmountV1 (d : FrameDriver) : FrameDriver := d

/-- componentWillUnmount of the second variant (lines 859-861):
cancelAnimationFrame(this.animationID). -/
def componentWillUnmountV2 (d : FrameDriver) : FrameDriver :=
  cancelAnimationFrame d d.animationID

/-- Claim C1: for cutoff > 0 and d >= 0 the falloff factor of
getMultiplicationFactor lies in the interval from 0 to 1, equals 1 at 0 and
0 at the cutoff, is monotonically non-increasing, strictly decreasing below
the cutoff, zero at and beyond it, and agrees with the inline mFactor of
CanvasImage.draw at the source's cutoff of 600. -/
theorem claim_C1 (cutOffDistance : ℚ) (hc : 0 < cutOffDistance) :
    (∀ d, 0 ≤ d →
      0 ≤ getMultiplicationFactor cutOffDistance d ∧
        getMultiplicationFactor cutOffDistance d ≤ 1) ∧
    getMultiplicationFactor cutOffDistance 0 = 1 ∧
    getMultiplicationFactor cutOffDistance cutOffDistance = 0 ∧
    (∀ d1 d2, 0 ≤ d1 → d1 ≤ d2 →
      getMultiplicationFactor cutOffDistance d2 ≤ getMultiplicationFactor cutOffDistance d1) ∧
    (∀ d1 d2, 0 ≤ d1 → d1 < d2 → d2 < cutOffDistance →
      getMultiplicationFactor cutOffDistance d2 < getMultiplicationFactor cutOffDistance d1) ∧
    (∀ d, cutOffDistance ≤ d → getMultiplicationFactor cutOffDistance d = 0) ∧
    (∀ d, mFactorDrawV1 d = getMultiplicationFactor 600 d) := by
  have hc0 : cutOffDistance ≠ 0 := ne_of_gt hc
  have key : ∀ d : ℚ, (-1 / cutOffDistance) * d + 1 = 1 - d / cutOffDistance := by
    intro d; field_simp; ring
  refine ⟨?_, ?_, ?_, ?_, ?_, ?_, ?_⟩
  · intro d hd
    unfold getMultiplicationFactor
    split_ifs with h
    · rw [key]
      have h1 : d / cutOffDistance < 1 := (div_lt_one hc).mpr h
      have h2 : 0 ≤ d / cutOffDistance := div_nonneg hd hc.le
      constructor <;> linarith
    · exact ⟨le_refl 0, zero_le_one⟩
  · unfold getMultiplicationFactor
    rw [if_pos hc]; ring
  · unfold getMultiplicationFactor
    rw [if_neg (lt_irrefl cutOffDistance)]
  · intro d1 d2 hd1 h12
    unfold getMultiplicationFactor
    split_ifs with h2 h1 h1
    · rw [key, key]
      have : d1 / cutOffDistance ≤ d2 / cutOffDistance :=
        div_le_div_of_nonneg_right h12 hc.le |>.trans_eq rfl
      linarith
    · exact absurd (lt_of_le_of_lt h12 h2) h1
    · rw [key]
      have : d1 / cutOffDistance < 1 := (div_lt_one hc).mpr h1
      linarith
    · exact le_refl 0
  · intro d1 d2 hd1 h12 h2c
    unfold getMultiplicationFactor
    rw [if_pos h2c, if_pos (lt_trans h12 h2c), key, key]
    have : d1 / cutOffDistance < d2 / cutOffDistance :=
      div_lt_div_of_pos_right h12 hc |>.trans_eq rfl
    linarith
  · intro d hd
    unfold getMultiplicationFactor
    rw [if_neg (not_lt.mpr hd)]
  · intro d
    unfold mFactorDrawV1 getMultiplicationFactor
    rfl

/-- Witness for claim C1 at the source's cutoff 600: the hypothesis 0 < 600
holds and the factor vanishes exactly at the cutoff. -/
theorem claim_C1_witness :
    (0 : ℚ) < 600 ∧ getMultiplicationFactor 600 600 = 0 :=
  ⟨by norm_num, (claim_C1 600 (by norm_num)).2.2.1⟩

/-- The four inline mFactor computations (draw and hit test, both variants)
are the same function of currentValue. -/
theorem mFactor_all_eq (currentValue : ℚ) :
    mFactorClickV1 currentValue = mFactorDrawV1 currentValue ∧
    mFactorClickV2 currentValue = mFactorDrawV2 currentValue ∧
    mFactorClickV1 currentValue = mFactorDrawV2 currentValue := by
  refine ⟨rfl, rfl, ?_⟩
  unfold mFactorClickV1 mFactorDrawV2
  split_ifs with h1 h2 h2
  · linarith
  · rfl
  · rfl
  · have he : currentValue = 600 := le_antisymm (not_lt.mp h2) (not_lt.mp h1)
    rw [he]; norm_num

/-- Claim C5: for every base dimension and currentValue, the dynamic width
and height the hit-test filter computes equal those the paint step computes,
within each variant and across the two variants, so hit regions cannot
diverge from what is painted. -/
theorem claim_C5 (width height currentValue : ℚ) :
    dynamicDimClickV1 width currentValue = dynamicDimDrawV1 width currentValue ∧
    dynamicDimClickV1 height currentValue = dynamicDimDrawV1 height currentValue ∧
    dynamicDimClickV2 width currentValue = dynamicDimDrawV2 width currentValue ∧
    dynamicDimClickV2 height currentValue = dynamicDimDrawV2 height currentValue ∧
    dynamicDimClickV1 width currentValue = dynamicDimDrawV2 width currentValue := by
  refine ⟨rfl, rfl, rfl, rfl, ?_⟩
  unfold dynamicDimClickV1 dynamicDimDrawV2
  rw [(mFactor_all_eq currentValue).2.2]

/-- Claim C2: once the absolute gap net of speed is within the acceleration
coefficient, one easing step returns current and speed unchanged, and every
iterate of the step with the same destination stays unchanged. -/
theorem claim_C2 (destinationValue currentValue speed accelaration_coefficient : ℚ)
    (h : |currentValue - destinationValue| - speed ≤ accelaration_coefficient) :
    applyNonDeterministicEaseOut destinationValue currentValue speed
        accelaration_coefficient compareAbs = (currentValue, speed) ∧
    ∀ n, easeIter destinationValue accelaration_coefficient n (currentValue, speed)
        = (currentValue, speed) := by
  have hstep : applyNonDeterministicEaseOut destinationValue currentValue speed
      accelaration_coefficient compareAbs = (currentValue, speed) := by
    unfold applyNonDeterministicEaseOut compareAbs
    rw [if_neg (not_lt.mpr h)]
  refine ⟨hstep, ?_⟩
  intro n
  induction n with
  | zero => rfl
  | succ k ih => rw [easeIter, ih]; exact hstep

/-- Witness for claim C2 at destination 0, state (0, 0), coefficient 1/20:
the convergence hypothesis holds and one step and three steps both leave the
state unchanged. -/
theorem claim_C2_witness :
    |(0 : ℚ) - 0| - 0 ≤ 1 / 20 ∧
    applyNonDeterministicEaseOut 0 0 0 (1 / 20) compareAbs = (0, 0) ∧
    easeIter 0 (1 / 20) 3 ((0 : ℚ), (0 : ℚ)) = (0, 0) :=
  ⟨by norm_num, (claim_C2 0 0 0 (1 / 20) (by norm_num)).1,
    (claim_C2 0 0 0 (1 / 20) (by norm_num)).2 3⟩

/-- One easing step with the absolute-difference compare and a nonnegative
speed: the new speed is nonnegative, the residual to the destination never
grows and never changes sign, and whenever the guard passes the residual
shrinks exactly by the factor 1 - acc with the step strictly approaching. -/
theorem easeOut_step_props (destinationValue currentValue speed : ℚ)
    (hs : 0 ≤ speed) :
    0 ≤ (applyNonDeterministicEaseOut destinationValue currentValue speed (1 / 20) compareAbs).2 ∧
    |destinationValue - (applyNonDeterministicEaseOut destinationValue currentValue speed (1 / 20) compareAbs).1|
      ≤ |destinationValue - currentValue| ∧
    0 ≤ (destinationValue - (applyNonDeterministicEaseOut destinationValue currentValue speed (1 / 20) compareAbs).1)
          * (destinationValue - currentValue) ∧
    (|currentValue - destinationValue| - speed > 1 / 20 →
      |destinationValue - (applyNonDeterministicEaseOut destinationValue currentValue speed (1 / 20) compareAbs).1|
          = (19 / 20) * |destinationValue - currentValue| ∧
      |destinationValue - (applyNonDeterministicEaseOut destinationValue currentValue speed (1 / 20) compareAbs).1|
          < |destinationValue - currentValue|) := by
  unfold applyNonDeterministicEaseOut compareAbs
  by_cases hg : |currentValue - destinationValue| - speed > 1 / 20
  · rw [if_pos hg]
    have hgap : 1 / 20 < |currentValue - destinationValue| := by linarith
    by_cases hlt : currentValue < destinationValue
    · have habs : |currentValue - destinationValue| = destinationValue - currentValue := by
        rw [abs_of_neg (show currentValue - destinationValue < 0 by linarith)]; ring
      rw [if_pos hlt]
      simp only [habs]
      have hpos : 0 < destinationValue - currentValue := by linarith
      have h1 : destinationValue - (currentValue + 1 * ((destinationValue - currentValue) * (1 / 20)))
          = (19 / 20) * (destinationValue - currentValue) := by ring
      have h2 : |destinationValue - (currentValue + 1 * ((destinationValue - currentValue) * (1 / 20)))|
          = (19 / 20) * (destinationValue - currentValue) := by
        rw [h1]; exact abs_of_pos (by linarith)
      have h3 : |destinationValue - currentValue| = destinationValue - currentValue :=
        abs_of_pos hpos
      refine ⟨by positivity, ?_, ?_, fun _ => ⟨by rw [h2, h3], ?_⟩⟩
      · rw [h2, h3]; linarith
      · rw [h1]; nlinarith
      · rw [h2, h3]; linarith
    · have hne : currentValue ≠ destinationValue := by
        intro he; rw [he] at hgap; simp at hgap; linarith
      have hgt : destinationValue < currentValue :=
        lt_of_le_of_ne (not_lt.mp hlt) (Ne.symm hne)
      have habs : |currentValue - destinationValue| = currentValue - destinationValue :=
        abs_of_pos (by linarith)
      rw [if_neg hlt]
      simp only [habs]
      have hpos : 0 < currentValue - destinationValue := by linarith
      have h1 : destinationValue - (currentValue + -1 * ((currentValue - destinationValue) * (1 / 20)))
          = -((19 / 20) * (currentValue - destinationValue)) := by ring
      have h2 : |destinationValue - (currentValue + -1 * ((currentValue - destinationValue) * (1 / 20)))|
          = (19 / 20) * (currentValue - destinationValue) := by
        rw [h1, abs_neg]; exact abs_of_pos (by linarith)
      have h3 : |destinationValue - currentValue| = currentValue - destinationValue := by
        rw [abs_sub_comm]; exact habs
      refine ⟨by positivity, ?_, ?_, fun _ => ⟨by rw [h2, h3], ?_⟩⟩
      · rw [h2, h3]; linarith
      · rw [h1]; nlinarith
      · rw [h2, h3]; linarith
  · rw [if_neg hg]
    refine ⟨hs, le_refl _, ?_, fun hc => absurd hc hg⟩
    exact mul_self_nonneg _

/-- Speed stays nonnegative along the iterated easing. -/
theorem easeIter_speed_nonneg (destinationValue currentValue speed : ℚ)
    (hs : 0 ≤ speed) (n : ℕ) :
    0 ≤ (easeIter destinationValue (1 / 20) n (currentValue, speed)).2 := by
  induction n with
  | zero => exact hs
  | succ k ih =>
      rw [easeIter]
      exact (easeOut_step_props destinationValue
        (easeIter destinationValue (1 / 20) k (currentValue, speed)).1
        (easeIter destinationValue (1 / 20) k (currentValue, speed)).2 ih).1

/-- Claim C7: iterating the easing step with coefficient 0.05 from a
nonnegative speed, the residual to the destination never grows between
consecutive iterates and never changes sign (no overshoot), and whenever
the guard applies the residual shrinks by exactly the factor 19/20 so the
current value moves strictly toward the destination. -/
theorem claim_C7 (destinationValue currentValue speed : ℚ)
    (hs : 0 ≤ speed) (n : ℕ) :
    0 ≤ (easeIter destinationValue (1 / 20) n (currentValue, speed)).2 ∧
    |destinationValue - (easeIter destinationValue (1 / 20) (n + 1) (currentValue, speed)).1|
      ≤ |destinationValue - (easeIter destinationValue (1 / 20) n (currentValue, speed)).1| ∧
    0 ≤ (destinationValue - (easeIter destinationValue (1 / 20) (n + 1) (currentValue, speed)).1)
          * (destinationValue - (easeIter destinationValue (1 / 20) n (currentValue, speed)).1) ∧
    (|(easeIter destinationValue (1 / 20) n (currentValue, speed)).1 - destinationValue|
        - (easeIter destinationValue (1 / 20) n (currentValue, speed)).2 > 1 / 20 →
      |destinationValue - (easeIter destinationValue (1 / 20) (n + 1) (currentValue, speed)).1|
          = (19 / 20) * |destinationValue - (easeIter destinationValue (1 / 20) n (currentValue, speed)).1| ∧
      |destinationValue - (easeIter destinationValue (1 / 20) (n + 1) (currentValue, speed)).1|
          < |destinationValue - (easeIter destinationValue (1 / 20) n (currentValue, speed)).1|) := by
  have hn := easeIter_speed_nonneg destinationValue currentValue speed hs n
  have hstep := easeOut_step_props destinationValue
    (easeIter destinationValue (1 / 20) n (currentValue, speed)).1
    (easeIter destinationValue (1 / 20) n (currentValue, speed)).2 hn
  rw [easeIter]
  exact ⟨hn, hstep.2.1, hstep.2.2.1, hstep.2.2.2⟩

/-- Witness for claim C7 at destination 100 from state (0, 0), step 0: the
hypothesis holds, the guard fires, and the residual after one step is
exactly 19/20 of the initial residual and strictly smaller. -/
theorem claim_C7_witness :
    (0 : ℚ) ≤ 0 ∧
    (|(100 : ℚ) - (easeIter 100 (1 / 20) 1 ((0 : ℚ), (0 : ℚ))).1|
        = (19 / 20) * |(100 : ℚ) - (easeIter 100 (1 / 20) 0 ((0 : ℚ), (0 : ℚ))).1| ∧
      |(100 : ℚ) - (easeIter 100 (1 / 20) 1 ((0 : ℚ), (0 : ℚ))).1|
        < |(100 : ℚ) - (easeIter 100 (1 / 20) 0 ((0 : ℚ), (0 : ℚ))).1|) :=
  ⟨le_refl 0,
    (claim_C7 100 0 0 (le_refl 0) 0).2.2.2 (by norm_num [easeIter])⟩

/-- Claim C6: from the initial pointer state the first event leaves both
totals at zero; an event repeating the coordinates of the previous event
contributes zero to the totals; the sequence (0,0), (10,5), (10,5) yields
totals (10, 5). -/
theorem claim_C6 :
    (∀ mx my : ℚ, (handleMouseMove initMouseState mx my).totalMovementX = 0 ∧
      (handleMouseMove initMouseState mx my).totalMovementY = 0) ∧
    (∀ (s : MouseState) (mx my : ℚ),
      (handleMouseMove (handleMouseMove s mx my) mx my).totalMovementX
          = (handleMouseMove s mx my).totalMovementX ∧
      (handleMouseMove (handleMouseMove s mx my) mx my).totalMovementY
          = (handleMouseMove s mx my).totalMovementY) ∧
    (processMouseMoves [(0, 0), (10, 5), (10, 5)]).totalMovementX = 10 ∧
    (processMouseMoves [(0, 0), (10, 5), (10, 5)]).totalMovementY = 5 := by
  refine ⟨?_, ?_, ?_, ?_⟩
  · intro mx my
    simp [handleMouseMove, initMouseState]
  · intro s mx my
    simp [handleMouseMove]
  · norm_num [processMouseMoves, handleMouseMove, initMouseState]
  · norm_num [processMouseMoves, handleMouseMove, initMouseState]

/-- Processing a non-empty batch of events from a state whose previous
coordinates are defined adds exactly the net displacement from those
previous coordinates to the batch's final position. -/
theorem foldl_mouseMove_totals (events : List (ℚ × ℚ)) :
    ∀ (s : MouseState) (p : ℚ × ℚ), s.prevMouseCoords = some p →
      ∀ hne : events ≠ [],
      (events.foldl (fun st e => handleMouseMove st e.1 e.2) s).totalMovementX
          = s.totalMovementX + ((events.getLast hne).1 - p.1) ∧
      (events.foldl (fun st e => handleMouseMove st e.1 e.2) s).totalMovementY
          = s.totalMovementY + ((events.getLast hne).2 - p.2) := by
  induction events with
  | nil => intro s p hp hne; exact absurd rfl hne
  | cons e t ih =>
      intro s p hp hne
      rcases eq_or_ne t [] with ht | ht
      · subst ht
        simp [handleMouseMove, hp, List.getLast]
      · have hstep : (handleMouseMove s e.1 e.2).prevMouseCoords = some (e.1, e.2) := rfl
        have hind := ih (handleMouseMove s e.1 e.2) (e.1, e.2) hstep ht
        simp only [List.foldl_cons]
        rw [List.getLast_cons ht]
        constructor
        · rw [hind.1]
          simp [handleMouseMove, hp]
          ring
        · rw [hind.2]
          simp [handleMouseMove, hp]
          ring

/-- Claim C10: for any non-empty event sequence processed from the initial
state, the accumulated totals telescope to the net displacement between the
first and last observed positions. -/
theorem claim_C10 (events : List (ℚ × ℚ)) (hne : events ≠ []) :
    (processMouseMoves events).totalMovementX
        = (events.getLast hne).1 - (events.head hne).1 ∧
    (processMouseMoves events).totalMovementY
        = (events.getLast hne).2 - (events.head hne).2 := by
  cases events with
  | nil => exact absurd rfl hne
  | cons e t =>
      rcases eq_or_ne t [] with ht | ht
      · subst ht
        simp [processMouseMoves, handleMouseMove, initMouseState, List.getLast]
      · have h1 : (handleMouseMove initMouseState e.1 e.2).prevMouseCoords
            = some (e.1, e.2) := rfl
        have h2 := foldl_mouseMove_totals t (handleMouseMove initMouseState e.1 e.2)
          (e.1, e.2) h1 ht
        have h3 : (handleMouseMove initMouseState e.1 e.2).totalMovementX = 0 := by
          simp [handleMouseMove, initMouseState]
        have h4 : (handleMouseMove initMouseState e.1 e.2).totalMovementY = 0 := by
          simp [handleMouseMove, initMouseState]
        unfold processMouseMoves
        simp only [List.foldl_cons]
        rw [List.getLast_cons ht]
        constructor
        · rw [h2.1, h3]; simp
        · rw [h2.2, h4]; simp

/-- Witness for claim C10 on the concrete sequence (0,0), (10,5), (10,5). -/
theorem claim_C10_witness :
    (processMouseMoves [(0, 0), (10, 5), (10, 5)]).totalMovementX
        = (([((0 : ℚ), (0 : ℚ)), (10, 5), (10, 5)]).getLast (by simp)).1
            - (([((0 : ℚ), (0 : ℚ)), (10, 5), (10, 5)]).head (by simp)).1 ∧
    (processMouseMoves [(0, 0), (10, 5), (10, 5)]).totalMovementY
        = (([((0 : ℚ), (0 : ℚ)), (10, 5), (10, 5)]).getLast (by simp)).2
            - (([((0 : ℚ), (0 : ℚ)), (10, 5), (10, 5)]).head (by simp)).2 :=
  claim_C10 [(0, 0), (10, 5), (10, 5)] (by simp)

/-- Indexing a list at length - 1 under a non-emptiness guard is its
optional last element. -/
theorem get?_length_sub_one {α : Type _} :
    ∀ l : List α, l.get? (l.length - 1) = l.getLast?
  | [] => rfl
  | [_] => rfl
  | a :: b :: u => by
      have ih := get?_length_sub_one (b :: u)
      simp only [List.length_cons] at ih ⊢
      rw [List.getLast?_cons_cons]
      simpa using ih

/-- The guarded last-index selection of handleCanvasClick equals getLast?. -/
theorem lastIndexSelection {α : Type _} (c : List α) :
    (if 0 < c.length then c.get? (c.length - 1) else none) = c.getLast? := by
  cases c with
  | nil => rfl
  | cons a t =>
      rw [if_pos (by simp)]
      exact get?_length_sub_one (a :: t)

/-- An optional last element is a member of the list. -/
theorem mem_of_getLast?_eq {α : Type _} {l : List α} {e : α}
    (h : l.getLast? = some e) : e ∈ l := by
  rcases List.mem_getLast?_eq_getLast (Option.mem_def.mpr h) with ⟨hne, he⟩
  rw [he]
  exact List.getLast_mem hne

/-- Click resolution for a generic filter predicate: the fired element is
the optional last element of the filtered list, any fired element is a
matching member, and nothing fires when nothing matches. -/
theorem clickResolution (pred : CanvasImage → Bool) (l : List CanvasImage) :
    (if 0 < (l.filter pred).length then
        (l.filter pred).get? ((l.filter pred).length - 1)
      else none) = (l.filter pred).getLast? ∧
    (∀ e, (l.filter pred).getLast? = some e → e ∈ l ∧ pred e = true) ∧
    ((∀ e ∈ l, pred e = false) → (l.filter pred).getLast? = none) := by
  refine ⟨lastIndexSelection (l.filter pred), ?_, ?_⟩
  · intro e he
    have hm : e ∈ l.filter pred := mem_of_getLast?_eq he
    exact ⟨(List.mem_filter.mp hm).1, (List.mem_filter.mp hm).2⟩
  · intro hall
    have hnil : l.filter pred = [] := by
      rw [List.filter_eq_nil_iff]
      intro a ha
      simp [hall a ha]
    rw [hnil]
    rfl

/-- Claim C3: at any parallax-translated pointer position, the click handler
(in both variants) fires exactly the last element of the filtered sequence
of entities whose dynamic bounds contain the position; any fired entity is
such a matching entity; and when no entity matches, nothing fires and the
result is the normal empty value none. -/
theorem claim_C3 (canvasElements : List CanvasImage) (mouseCoords : ℚ × ℚ)
    (currentOffsetX currentOffsetY coefficient : ℚ) :
    handleCanvasClick canvasElements
        (translatedMouseCoords mouseCoords currentOffsetX currentOffsetY coefficient)
      = (canvasElements.filter
          (inRegion (translatedMouseCoords mouseCoords currentOffsetX currentOffsetY coefficient))).getLast? ∧
    handleCanvasClickV2 canvasElements
        (translatedMouseCoords mouseCoords currentOffsetX currentOffsetY coefficient)
      = (canvasElements.filter
          (inRegionV2 (translatedMouseCoords mouseCoords currentOffsetX currentOffsetY coefficient))).getLast? ∧
    (∀ e, handleCanvasClick canvasElements
        (translatedMouseCoords mouseCoords currentOffsetX currentOffsetY coefficient) = some e →
      e ∈ canvasElements ∧
        inRegion (translatedMouseCoords mouseCoords currentOffsetX currentOffsetY coefficient) e = true) ∧
    (∀ e, handleCanvasClickV2 canvasElements
        (translatedMouseCoords mouseCoords currentOffsetX currentOffsetY coefficient) = some e →
      e ∈ canvasElements ∧
        inRegionV2 (translatedMouseCoords mouseCoords currentOffsetX currentOffsetY coefficient) e = true) ∧
    ((∀ e ∈ canvasElements,
        inRegion (translatedMouseCoords mouseCoords currentOffsetX currentOffsetY coefficient) e = false) →
      handleCanvasClick canvasElements
        (translatedMouseCoords mouseCoords currentOffsetX currentOffsetY coefficient) = none) ∧
    ((∀ e ∈ canvasElements,
        inRegionV2 (translatedMouseCoords mouseCoords currentOffsetX currentOffsetY coefficient) e = false) →
      handleCanvasClickV2 canvasElements
        (translatedMouseCoords mouseCoords currentOffsetX currentOffsetY coefficient) = none) := by
  have r1 := clickResolution
    (inRegion (translatedMouseCoords mouseCoords currentOffsetX currentOffsetY coefficient))
    canvasElements
  have r2 := clickResolution
    (inRegionV2 (translatedMouseCoords mouseCoords currentOffsetX currentOffsetY coefficient))
    canvasElements
  have e1 : handleCanvasClick canvasElements
      (translatedMouseCoords mouseCoords currentOffsetX currentOffsetY coefficient)
      = (canvasElements.filter
          (inRegion (translatedMouseCoords mouseCoords currentOffsetX currentOffsetY coefficient))).getLast? :=
    r1.1
  have e2 : handleCanvasClickV2 canvasElements
      (translatedMouseCoords mouseCoords currentOffsetX currentOffsetY coefficient)
      = (canvasElements.filter
          (inRegionV2 (translatedMouseCoords mouseCoords currentOffsetX currentOffsetY coefficient))).getLast? :=
    r2.1
  refine ⟨e1, e2, ?_, ?_, ?_, ?_⟩
  · intro e he
    exact r1.2.1 e (e1 ▸ he)
  · intro e he
    exact r2.2.1 e (e2 ▸ he)
  · intro hall
    rw [e1]
    exact r1.2.2 hall
  · intro hall
    rw [e2]
    exact r2.2.2 hall

/-- Witness for claim C3: with a single 200 x 250 entity centred at
(100, 100) in rest state and a click translated to (150, 150), the handler
fires that entity, which indeed contains the position. -/
theorem claim_C3_witness :
    sampleImage ∈ [sampleImage] ∧
    inRegion (translatedMouseCoords (150, 150) 0 0 (1 / 4)) sampleImage = true :=
  (claim_C3 [sampleImage] (150, 150) 0 0 (1 / 4)).2.2.1 sampleImage (by
    have hreg : inRegion (translatedMouseCoords (150, 150) 0 0 (1 / 4)) sampleImage = true := by
      norm_num [inRegion, sampleImage, translatedMouseCoords, dynamicDimClickV1, mFactorClickV1]
    have hf : List.filter (inRegion (translatedMouseCoords (150, 150) 0 0 (1 / 4))) [sampleImage]
        = [sampleImage] := by
      rw [List.filter_cons, hreg]
      simp
    rw [(claim_C3 [sampleImage] (150, 150) 0 0 (1 / 4)).1, hf]
    rfl)

/-- Claim C4: the paint orderer returns a permutation of the entities that
is pairwise ordered by descending Euclidean distance from the (translated)
pointer to each entity's center - farthest first, nearest last - and on
ties (the relation being total) it still produces a permutation. -/
theorem claim_C4 (tm : ℚ × ℚ) (canvasElements : List CanvasImage) :
    List.Pairwise (fun elem1 elem2 =>
        Real.sqrt ((euclideanDistanceSq elem2.center tm : ℚ) : ℝ)
          ≤ Real.sqrt ((euclideanDistanceSq elem1.center tm : ℚ) : ℝ))
      (sortCanvasElements tm canvasElements) ∧
    List.Perm (sortCanvasElements tm canvasElements) canvasElements := by
  constructor
  · have hs : List.Sorted (distanceGE tm) (sortCanvasElements tm canvasElements) := by
      haveI : IsTotal CanvasImage (distanceGE tm) := ⟨fun a b => le_total _ _⟩
      haveI : IsTrans CanvasImage (distanceGE tm) := ⟨fun a b c hab hbc => le_trans hbc hab⟩
      exact List.sorted_insertionSort (distanceGE tm) canvasElements
    exact hs.imp fun h => Real.sqrt_le_sqrt (by exact_mod_cast h)
  · exact List.perm_insertionSort (distanceGE tm) canvasElements

/-- Claim C8 divergence: unmounting the second variant cancels the pending
scheduled callback (Running to Idle), while unmounting the first variant
leaves the scheduling state untouched even though a callback is always
pending after a tick - the loop keeps running after the component is gone. -/
theorem claim_C8 (d : FrameDriver) :
    (componentWillUnmountV2 (animateTickV2 d)).pending = none ∧
    (componentWillUnmountV1 (animateTickV1 d)).pending = (animateTickV1 d).pending ∧
    ((animateTickV1 d).pending).isSome = true := by
  refine ⟨?_, rfl, rfl⟩
  simp [componentWillUnmountV2, animateTickV2, requestAnimationFrame, cancelAnimationFrame]

/-- Counterexample to claim C9: constructing an entity with negative width
and height succeeds (the constructor has no validation or failure path) and
stores the non-positive dimensions unchanged. -/
theorem claim_C9_counterexample :
    CanvasImage.construct 0 0 (-5) (-7) "u"
      = Except.ok
          { width := -5, height := -7, url := "u",
            center := (-5 / 2, -7 / 2), currentValue := 2000, speed := 0 } := by
  norm_num [CanvasImage.construct]

/-- Amended claim C9: construction never fails and never clamps - both
variant constructors accept every configuration, including non-positive
dimensions, and store the fields unchanged; no cutoff distance is part of
the constructor inputs. -/
theorem claim_C9_amended (left top width height : ℚ) (url : String) :
    CanvasImage.construct left top width height url
        = Except.ok
            { width := width, height := height, url := url,
              center := (left + width / 2, top + height / 2),
              currentValue := 2000, speed := 0 } ∧
    CanvasImageV2.construct left top width height url
        = Except.ok
            { width := width, height := height, url := url,
              center := (left + width / 2, top + height / 2),
              hasLoaded := false, opacity := 0, loadingAnimationStartTime := none,
              currentValue := 2000, speed := 0 } :=
  ⟨rfl, rfl⟩

end ParallaxCanvas
